import Mathlib

/-!
Verification development for the job-hunter-api result-composition and
deduplication pipeline (src/app/controller.py, src/db/schema.py).

The Python controller is shallowly embedded as pure Lean functions:
  - `search_jobs` models `JobController.search_jobs` (the active code path,
    which bypasses the scraper);
  - `get_jobs_from_database` models `JobController._get_jobs_from_database`,
    with PostgreSQL full-text search modelled at the lexeme level;
  - `filter_duplicate_jobs` models `JobController._filter_duplicate_jobs`;
  - `save_jobs_to_database` / `save_jobs_individually` model the persistence
    path, with environmental (non-constraint) failures supplied by explicit
    fault oracles and uniqueness-constraint violations derived from the data;
  - `scrapeWithRetry` models the tenacity retry decorator on
    `_scrape_jobs_with_retry`.
-/

/-- A persisted job record (db/schema.py `Job`), restricted to the columns the
pipeline logic reads: the unique nullable `job_id` plus the query-filter
columns.  All remaining columns are opaque pass-through data. -/
structure Job where
  job_id : Option String
  title : Option String
  company : Option String
  description : Option String
  location : Option String
  job_type : Option String
  is_remote : Option Bool
  date_posted : Option Int
  deriving Repr, DecidableEq

/-- A raw scraped record (a dict from `jobs.to_dict` in the controller).  The
provider identifier is under the key `id`; `none` models an absent key.
`malformed` marks records for which `Job(**job_dict)` raises. -/
structure RawJob where
  id : Option String
  title : Option String
  company : Option String
  description : Option String
  location : Option String
  job_type : Option String
  is_remote : Option Bool
  date_posted : Option Int
  malformed : Bool
  deriving Repr, DecidableEq

/-- The job store: the persisted table in its stable (insertion) order. -/
abbrev Store := List Job

/-- The non-null provider identifiers of the persisted records, in order.
SQL `UNIQUE` on a nullable column constrains exactly these. -/
def storeIds (store : Store) : List String :=
  store.filterMap (fun j => j.job_id)

/-- Python truthiness of `job.get('id')`: an absent key or empty string is
falsy, everything else yields the identifier. -/
def truthy : Option String → Option String
  | none => none
  | some s => if s = "" then none else some s

/-- Python slicing `xs[:n]`, including negative `n` (count from the end). -/
def pyTake {α : Type} (n : Int) (xs : List α) : List α :=
  if 0 ≤ n then xs.take n.toNat else xs.take (xs.length - (-n).toNat)

/-! ### PostgreSQL full-text search model

`_get_jobs_from_database` filters with
`to_tsvector('english', COALESCE(col, '')) @@ plainto_tsquery('english', term)`
over title, company, description.  We model `english` text-search
normalization at the lexeme level: words are the maximal alphanumeric runs,
lowercased, with stop words removed (the PostgreSQL english stop-word list
contains `or`, `and`, `the`, ...).  `plainto_tsquery` parses its input as
plain text -- operators are not interpreted -- and combines all resulting
lexemes with AND; an empty tsquery matches nothing. -/

/-- Representative fragment of PostgreSQL's english stop-word list (the words
exercised by the store queries; crucially it contains `or` and `and`). -/
def stopWords : List String :=
  ["a", "an", "and", "are", "as", "at", "be", "but", "by", "for", "if", "in",
   "into", "is", "it", "no", "not", "of", "on", "or", "such", "that", "the",
   "their", "then", "there", "these", "they", "this", "to", "was", "will",
   "with"]

/-- Maximal alphanumeric runs of a character list (words), in order. -/
def wordsAux : List Char → List Char → List (List Char)
  | [], cur => if cur = [] then [] else [cur.reverse]
  | c :: cs, cur =>
    if c.isAlphanum then wordsAux cs (c :: cur)
    else if cur = [] then wordsAux cs [] else cur.reverse :: wordsAux cs []

/-- Lexemes of an english text: lowercased words minus stop words. -/
def lexemes (s : String) : List String :=
  ((wordsAux (s.toList.map Char.toLower) []).map List.asString).filter
    (fun w => !(stopWords.contains w))

/-- Model of `to_tsvector('english', s)`: the set of lexemes of `s`. -/
def toTsvector (s : String) : List String := lexemes s

/-- Model of `plainto_tsquery('english', s)`: the lexemes of `s`, implicitly
AND-combined (operators in `s` are not interpreted). -/
def plaintoTsquery (s : String) : List String := lexemes s

/-- Model of `vec @@ query` for a `plainto_tsquery` query: every query lexeme
occurs in the vector, and the query is non-empty (an empty tsquery matches
nothing). -/
def tsMatch (vec query : List String) : Bool :=
  !query.isEmpty && query.all (fun w => vec.contains w)

/-- `COALESCE(col, '')`. -/
def coalesce (s : Option String) : String := s.getD ""

/-- One disjunct of the SQL full-text condition: a single nullable column
matched against the query lexemes. -/
def fieldMatch (field : Option String) (query : List String) : Bool :=
  tsMatch (toTsvector (coalesce field)) query

/-- The full-text condition of `_get_jobs_from_database` (controller.py
lines 158-162): title, company or description matches the search term. -/
def fullTextCondition (search_term : String) (j : Job) : Bool :=
  fieldMatch j.title (plaintoTsquery search_term) ||
  fieldMatch j.company (plaintoTsquery search_term) ||
  fieldMatch j.description (plaintoTsquery search_term)

/-! ### Store query (`_get_jobs_from_database`) -/

/-- Case-insensitive prefix test on character lists. -/
def isPrefB : List Char → List Char → Bool
  | [], _ => true
  | _ :: _, [] => false
  | a :: as, b :: bs => a == b && isPrefB as bs

/-- Substring test on character lists. -/
def isSubB (needle : List Char) : List Char → Bool
  | [] => isPrefB needle []
  | b :: bs => isPrefB needle (b :: bs) || isSubB needle bs

/-- SQL `col ILIKE '%needle%'`: case-insensitive substring containment. -/
def strContains (hay needle : String) : Bool :=
  isSubB (needle.toList.map Char.toLower) (hay.toList.map Char.toLower)

/-- `ILIKE` on a nullable column: SQL NULL never satisfies the predicate. -/
def optContains (field : Option String) (needle : String) : Bool :=
  match field with
  | none => false
  | some s => strContains s needle

/-- The resolved search request (routes.py query parameters reaching the
controller; scraper-only pass-through parameters omitted). -/
structure SearchRequest where
  search_term : String
  location : String
  is_remote : Bool
  results_wanted : Nat
  job_type : String
  hours_old : Int
  offset : Nat
  deriving Repr, DecidableEq

/-- The WHERE clause of the store query (controller.py lines 148-185), for a
query evaluated at time `now` (hours as time unit).  Note the controller
always applies the remote filter: `is_remote` is a non-null bool, so
`if is_remote is not None` is always true, and `Job.is_remote == is_remote`
excludes records with NULL `is_remote`. -/
def jobMatches (now : Int) (req : SearchRequest) (j : Job) : Bool :=
  (req.search_term == "" || fullTextCondition req.search_term j) &&
  (req.location == "" || optContains j.location req.location) &&
  (j.is_remote == some req.is_remote) &&
  (req.job_type == "" || optContains j.job_type req.job_type) &&
  (decide (req.hours_old ≤ 0) ||
    (match j.date_posted with
     | some d => decide (now - req.hours_old ≤ d)
     | none => false))

/-- `JobController._get_jobs_from_database`: filter, then offset, then limit
to `results_wanted`, in the store's stable order. -/
def get_jobs_from_database (now : Int) (store : Store) (req : SearchRequest) :
    List Job :=
  (((store.filter (jobMatches now req)).drop req.offset).take req.results_wanted)

/-- Provenance counts of the response envelope. -/
structure SourceCounts where
  database : Nat
  scraped : Nat
  total : Nat
  deriving Repr, DecidableEq

/-- The response envelope returned by `search_jobs`. -/
structure SearchResponse where
  jobs : List Job
  source : SourceCounts
  debug_mode : Option String
  deriving Repr, DecidableEq

/-- `JobController.search_jobs` as the code executes it (controller.py lines
44-72): the database query result is truncated and returned directly with
`scraped = 0` and `debug_mode = "scraper_bypassed"`; the fetch-and-reconcile
logic (lines 74-116) is commented out and never runs. -/
def search_jobs (now : Int) (store : Store) (req : SearchRequest) :
    SearchResponse :=
  let db_jobs_dict := get_jobs_from_database now store req
  let final_jobs :=
    if db_jobs_dict.length > req.results_wanted then
      db_jobs_dict.take req.results_wanted
    else db_jobs_dict
  { jobs := final_jobs,
    source :=
      { database := final_jobs.length, scraped := 0, total := final_jobs.length },
    debug_mode := some "scraper_bypassed" }

/-! ### Deduplication (`_filter_duplicate_jobs`) -/

/-- `[job.get('id') for job in scraped_jobs if job.get('id')]`: the truthy
provider identifiers of a scraped batch. -/
def scraperJobIds (batch : List RawJob) : List String :=
  batch.filterMap (fun j => truthy j.id)

/-- `select(Job.job_id).where(Job.job_id.in_(ids))`: the single bulk existence
check -- persisted identifiers that occur among the scraped identifiers. -/
def existingJobIds (store : Store) (ids : List String) : List String :=
  (storeIds store).filter (fun x => decide (x ∈ ids))

/-- The main loop of `_filter_duplicate_jobs` (controller.py lines 308-339):
skip id-less records, store duplicates and batch duplicates; append survivors
and stop once `additional_needed` records have been collected (the cap is
checked after appending). -/
def filterDupLoop (existing : List String) (needed : Int) :
    List String → List RawJob → List RawJob → List RawJob
  | _, acc, [] => acc
  | processed, acc, j :: rest =>
    match truthy j.id with
    | none => filterDupLoop existing needed processed acc rest
    | some jid =>
      if jid ∈ existing then filterDupLoop existing needed processed acc rest
      else if jid ∈ processed then filterDupLoop existing needed processed acc rest
      else
        if needed ≤ ((acc ++ [j]).length : Int) then acc ++ [j]
        else filterDupLoop existing needed (jid :: processed) (acc ++ [j]) rest

/-- `JobController._filter_duplicate_jobs` (controller.py lines 282-339),
including the early return of the unfiltered (truncated) batch when no record
carries a truthy identifier. -/
def filter_duplicate_jobs (store : Store) (scraped_jobs : List RawJob)
    (additional_needed : Int) : List RawJob :=
  if scraped_jobs = [] then []
  else if scraperJobIds scraped_jobs = [] then pyTake additional_needed scraped_jobs
  else
    filterDupLoop (existingJobIds store (scraperJobIds scraped_jobs))
      additional_needed [] [] scraped_jobs

/-! ### Persistence (`_save_jobs_to_database`, `_save_jobs_individually`)

Uniqueness-constraint violations are derived from the data (a duplicate
non-null `job_id`); any other (environmental) failure of a commit is supplied
by an explicit fault oracle: `bulkFault` for the bulk commit and `f n` for the
`n`-th individual commit. -/

/-- `Job(**job_dict)` with the scraper `id` key renamed to `job_id`
(controller.py lines 355-366); `none` when construction raises. -/
def constructJob (r : RawJob) : Option Job :=
  if r.malformed then none
  else
    some { job_id := r.id, title := r.title, company := r.company,
           description := r.description, location := r.location,
           job_type := r.job_type, is_remote := r.is_remote,
           date_posted := r.date_posted }

/-- Classification of a persistence failure, per the controller's
`'unique' in message or 'duplicate' in message` check. -/
inductive DBErr where
  | unique
  | other
  deriving Repr, DecidableEq

/-- Final store plus the counters of the individual-save path. -/
structure SaveResult where
  store : Store
  saved : Nat
  dups : Nat
  deriving Repr, DecidableEq

/-- Outcome of the persistence path: success, or a propagated error together
with the rolled-back store. -/
inductive SaveOutcome where
  | ok (r : SaveResult)
  | fatal (e : DBErr) (rolledBack : Store)
  deriving Repr, DecidableEq

/-- The bulk commit raises a uniqueness violation iff the batch introduces a
duplicate non-null `job_id` (against the store or within the batch). -/
def bulkConflict (store : Store) (newJobs : List Job) : Bool :=
  !(decide ((storeIds store ++ storeIds newJobs).Nodup))

/-- The loop of `_save_jobs_individually` (controller.py lines 407-421): one
transaction per record; a faulted commit rolls back and continues uncounted, a
uniqueness violation rolls back and counts as a duplicate, otherwise the
record is committed. -/
def saveIndLoop (f : Nat → Bool) :
    Nat → Store → Nat → Nat → List Job → SaveResult
  | _, store, saved, dups, [] => ⟨store, saved, dups⟩
  | n, store, saved, dups, j :: rest =>
    if f n then saveIndLoop f (n + 1) store saved dups rest
    else
      match j.job_id with
      | some jid =>
        if jid ∈ storeIds store then
          saveIndLoop f (n + 1) store saved (dups + 1) rest
        else saveIndLoop f (n + 1) (store ++ [j]) (saved + 1) dups rest
      | none => saveIndLoop f (n + 1) (store ++ [j]) (saved + 1) dups rest

/-- `JobController._save_jobs_individually`. -/
def save_jobs_individually (f : Nat → Bool) (store : Store) (jobs : List Job) :
    SaveResult :=
  saveIndLoop f 0 store 0 0 jobs

/-- `JobController._save_jobs_to_database` (controller.py lines 342-398):
construct the records (skipping malformed ones), attempt one bulk commit; on a
uniqueness violation roll back and replay individually, on any other commit
failure roll back and propagate. -/
def save_jobs_to_database (bulkFault : Bool) (f : Nat → Bool) (store : Store)
    (jobs_dict : List RawJob) : SaveOutcome :=
  if jobs_dict = [] then .ok ⟨store, 0, 0⟩
  else if jobs_dict.filterMap constructJob = [] then .ok ⟨store, 0, 0⟩
  else if bulkFault then .fatal .other store
  else if bulkConflict store (jobs_dict.filterMap constructJob) then
    .ok (save_jobs_individually f store (jobs_dict.filterMap constructJob))
  else
    .ok ⟨store ++ jobs_dict.filterMap constructJob,
      (jobs_dict.filterMap constructJob).length, 0⟩

/-- The store an outcome leaves behind (committed, or rolled back). -/
def outcomeStore : SaveOutcome → Store
  | .ok r => r.store
  | .fatal _ s => s

/-- Whether an outcome is a propagated uniqueness violation (the controller
never produces one: uniqueness conflicts are resolved internally). -/
def outcomeFatalUnique : SaveOutcome → Bool
  | .fatal DBErr.unique _ => true
  | _ => false

/-- One fault-free pass of the Fetch-and-Reconcile Engine over an already
normalized batch (controller.py lines 262-275): deduplicate, then persist the
survivors; returns the accepted records and the resulting store. -/
def engineOnce (store : Store) (batch : List RawJob) (needed : Int) :
    List RawJob × Store :=
  let accepted := filter_duplicate_jobs store batch needed
  (accepted,
   outcomeStore (save_jobs_to_database false (fun _ => false) store accepted))

/-! ### Retry policy (`_scrape_jobs_with_retry`)

The tenacity decorator `retry(stop=stop_after_attempt(3),
wait=wait_exponential(multiplier=1, min=4, max=10),
retry=retry_if_exception_type((RetryError, RequestException)))` is embedded
with the attempt outcomes supplied by an oracle indexed by the 1-based
attempt number. -/

/-- The exception classes relevant to the retry predicate. -/
inductive ExcType where
  | retryError
  | requestException
  | valueError
  | runtimeError
  deriving Repr, DecidableEq

/-- `retry_if_exception_type((requests.exceptions.RetryError,
requests.exceptions.RequestException))`: the transient network/rate-limit
class. -/
def isRetryableExc : ExcType → Bool
  | .retryError => true
  | .requestException => true
  | .valueError => false
  | .runtimeError => false

/-- Outcome of one invocation of the wrapped `scrape_jobs`. -/
inductive AttemptResult (α : Type) where
  | success (v : α)
  | failure (e : ExcType)

/-- tenacity `wait_exponential(multiplier, min, max)` evaluated after the
attempt numbered `attemptNumber`:
`max(min, min(max, multiplier * 2 ^ attemptNumber))`. -/
def waitExponential (multiplier minW maxW attemptNumber : Nat) : Nat :=
  max minW (min maxW (multiplier * 2 ^ attemptNumber))

/-- Final outcome of the retry loop: the delivered value or propagated
exception, the number of attempts made, and the backoff waits slept between
attempts. -/
inductive RetryOutcome (α : Type) where
  | succeeded (v : α) (attemptsMade : Nat) (waits : List Nat)
  | exhausted (lastErr : ExcType) (attemptsMade : Nat) (waits : List Nat)
  | propagated (e : ExcType) (attemptsMade : Nat) (waits : List Nat)

/-- Number of attempts an outcome records. -/
def RetryOutcome.attemptsMade {α : Type} : RetryOutcome α → Nat
  | .succeeded _ n _ => n
  | .exhausted _ n _ => n
  | .propagated _ n _ => n

/-- The tenacity retry loop: `remaining` retries left after the current
attempt `n`; a non-retryable exception propagates immediately, a retryable
one sleeps `wait_exponential` and retries until attempts are exhausted. -/
def retryAux {α : Type} (attempts : Nat → AttemptResult α) :
    Nat → Nat → List Nat → RetryOutcome α
  | remaining, n, waits =>
    match attempts n with
    | .success v => .succeeded v n waits
    | .failure e =>
      if isRetryableExc e = false then .propagated e n waits
      else
        match remaining with
        | 0 => .exhausted e n waits
        | r + 1 =>
          retryAux attempts r (n + 1) (waits ++ [waitExponential 1 4 10 n])

/-- `_scrape_jobs_with_retry`: `stop_after_attempt(3)` means the first attempt
plus at most 2 retries. -/
def scrapeWithRetry {α : Type} (attempts : Nat → AttemptResult α) :
    RetryOutcome α :=
  retryAux attempts 2 1 []

/-! ### Helper lemmas -/

/-- A truthy identifier is the identifier itself. -/
theorem truthy_eq_some {o : Option String} {s : String} (h : truthy o = some s) :
    o = some s := by
  cases o with
  | none => simp [truthy] at h
  | some t =>
    by_cases ht : t = ""
    · simp [truthy, ht] at h
    · simpa [truthy, ht] using h

/-- `storeIds` distributes over store concatenation. -/
theorem storeIds_append (s t : Store) :
    storeIds (s ++ t) = storeIds s ++ storeIds t := by
  simp [storeIds, List.filterMap_append]

/-- Appending a record with a fresh non-null identifier preserves identifier
uniqueness. -/
theorem nodup_append_fresh {store : Store} {j : Job} {jid : String}
    (h : (storeIds store).Nodup) (hj : j.job_id = some jid)
    (hmem : jid ∉ storeIds store) : (storeIds (store ++ [j])).Nodup := by
  rw [storeIds_append]
  have hsingle : storeIds [j] = [jid] := by simp [storeIds, hj]
  rw [hsingle]
  rw [List.nodup_append]
  refine ⟨h, List.nodup_singleton jid, ?_⟩
  intro x hx hx2
  simp only [List.mem_singleton] at hx2
  subst hx2
  exact hmem hx


/-- The filter loop only ever adds records whose identifier is truthy. -/
theorem filterDupLoop_id_present (existing : List String) (needed : Int) :
    ∀ (batch : List RawJob) (processed : List String) (acc : List RawJob),
      (∀ r ∈ acc, truthy r.id ≠ none) →
      ∀ r ∈ filterDupLoop existing needed processed acc batch,
        truthy r.id ≠ none := by
  intro batch
  induction batch with
  | nil =>
    intro processed acc hacc r hr
    rw [filterDupLoop] at hr
    exact hacc r hr
  | cons j rest ih =>
    intro processed acc hacc r hr
    rw [filterDupLoop] at hr
    split at hr
    · exact ih processed acc hacc r hr
    · rename_i jid htr
      split at hr
      · exact ih processed acc hacc r hr
      · split at hr
        · exact ih processed acc hacc r hr
        · have hacc2 : ∀ x ∈ acc ++ [j], truthy x.id ≠ none := by
            intro x hx
            rcases List.mem_append.mp hx with hx | hx
            · exact hacc x hx
            · simp only [List.mem_singleton] at hx
              subst hx
              simp [htr]
          split at hr
          · exact hacc2 r hr
          · exact ih (jid :: processed) (acc ++ [j]) hacc2 r hr

/-- The filter loop returns an extension of its accumulator. -/
theorem filterDupLoop_acc_extends (existing : List String) (needed : Int) :
    ∀ (batch : List RawJob) (processed : List String) (acc : List RawJob),
      ∃ t, filterDupLoop existing needed processed acc batch = acc ++ t := by
  intro batch
  induction batch with
  | nil =>
    intro processed acc
    exact ⟨[], by rw [filterDupLoop, List.append_nil]⟩
  | cons j rest ih =>
    intro processed acc
    rw [filterDupLoop]
    split
    · exact ih processed acc
    · rename_i jid htr
      split
      · exact ih processed acc
      · split
        · exact ih processed acc
        · split
          · exact ⟨[j], rfl⟩
          · obtain ⟨t, ht⟩ := ih (jid :: processed) (acc ++ [j])
            exact ⟨j :: t, by rw [ht, List.append_assoc]; rfl⟩

/-- Every record the filter loop returns comes from the accumulator or the
batch. -/
theorem filterDupLoop_mem (existing : List String) (needed : Int) :
    ∀ (batch : List RawJob) (processed : List String) (acc : List RawJob),
      ∀ r ∈ filterDupLoop existing needed processed acc batch,
        r ∈ acc ∨ r ∈ batch := by
  intro batch
  induction batch with
  | nil =>
    intro processed acc r hr
    rw [filterDupLoop] at hr
    exact Or.inl hr
  | cons j rest ih =>
    intro processed acc r hr
    rw [filterDupLoop] at hr
    split at hr
    · rcases ih processed acc r hr with h | h
      · exact Or.inl h
      · exact Or.inr (List.mem_cons_of_mem j h)
    · rename_i jid htr
      split at hr
      · rcases ih processed acc r hr with h | h
        · exact Or.inl h
        · exact Or.inr (List.mem_cons_of_mem j h)
      · split at hr
        · rcases ih processed acc r hr with h | h
          · exact Or.inl h
          · exact Or.inr (List.mem_cons_of_mem j h)
        · split at hr
          · rcases List.mem_append.mp hr with h | h
            · exact Or.inl h
            · simp only [List.mem_singleton] at h
              subst h
              exact Or.inr (List.mem_cons_self r rest)
          · rcases ih (jid :: processed) (acc ++ [j]) r hr with h | h
            · rcases List.mem_append.mp h with h | h
              · exact Or.inl h
              · simp only [List.mem_singleton] at h
                subst h
                exact Or.inr (List.mem_cons_self r rest)
            · exact Or.inr (List.mem_cons_of_mem j h)

/-- When the filter loop terminates below the cap, every truthy identifier of
the batch was dealt with: it was already persisted, already processed, or it
is an identifier of an accepted record. -/
theorem filterDupLoop_covers (existing : List String) (needed : Int) :
    ∀ (batch : List RawJob) (processed : List String) (acc res : List RawJob),
      filterDupLoop existing needed processed acc batch = res →
      (res.length : Int) < needed →
      ∀ j ∈ batch, ∀ jid, truthy j.id = some jid →
        jid ∈ existing ∨ jid ∈ processed ∨
          jid ∈ res.filterMap (fun r => truthy r.id) := by
  intro batch
  induction batch with
  | nil =>
    intro processed acc res hres hlen j hj
    exact absurd hj (List.not_mem_nil j)
  | cons j0 rest ih =>
    intro processed acc res hres hlen j hj jid hjid
    rw [filterDupLoop] at hres
    split at hres
    · rename_i htr
      rcases List.mem_cons.mp hj with rfl | hj
      · rw [htr] at hjid
        exact absurd hjid (by simp)
      · exact ih processed acc res hres hlen j hj jid hjid
    · rename_i jid0 htr
      split at hres
      · rename_i hin
        rcases List.mem_cons.mp hj with rfl | hj
        · rw [htr] at hjid
          injection hjid with hq
          subst hq
          exact Or.inl hin
        · exact ih processed acc res hres hlen j hj jid hjid
      · rename_i hnin
        split at hres
        · rename_i hproc
          rcases List.mem_cons.mp hj with rfl | hj
          · rw [htr] at hjid
            injection hjid with hq
            subst hq
            exact Or.inr (Or.inl hproc)
          · exact ih processed acc res hres hlen j hj jid hjid
        · rename_i hproc
          split at hres
          · rename_i hbreak
            exfalso
            rw [← hres] at hlen
            omega
          · rename_i hbreak
            have hj0mem : j0 ∈ res := by
              obtain ⟨t, ht⟩ :=
                filterDupLoop_acc_extends existing needed rest
                  (jid0 :: processed) (acc ++ [j0])
              rw [hres] at ht
              rw [ht]
              exact List.mem_append.mpr
                (Or.inl (List.mem_append.mpr (Or.inr (List.mem_singleton.mpr rfl))))
            rcases List.mem_cons.mp hj with rfl | hj
            · rw [htr] at hjid
              injection hjid with hq
              subst hq
              exact Or.inr (Or.inr (List.mem_filterMap.mpr ⟨j, hj0mem, htr⟩))
            · rcases ih (jid0 :: processed) (acc ++ [j0]) res hres hlen j hj jid hjid
                with h | h | h
              · exact Or.inl h
              · rcases List.mem_cons.mp h with rfl | h
                · exact Or.inr (Or.inr (List.mem_filterMap.mpr ⟨j0, hj0mem, htr⟩))
                · exact Or.inr (Or.inl h)
              · exact Or.inr (Or.inr h)

/-- If every truthy identifier of the batch is already persisted, the filter
loop accepts nothing. -/
theorem filterDupLoop_all_skipped (existing : List String) (needed : Int) :
    ∀ (batch : List RawJob) (processed : List String) (acc : List RawJob),
      (∀ j ∈ batch, ∀ jid, truthy j.id = some jid → jid ∈ existing) →
      filterDupLoop existing needed processed acc batch = acc := by
  intro batch
  induction batch with
  | nil =>
    intro processed acc hall
    rw [filterDupLoop]
  | cons j rest ih =>
    intro processed acc hall
    rw [filterDupLoop]
    split
    · exact ih processed acc
        (fun x hx => hall x (List.mem_cons_of_mem j hx))
    · rename_i jid htr
      rw [if_pos (hall j (List.mem_cons_self j rest) jid htr)]
      exact ih processed acc
        (fun x hx => hall x (List.mem_cons_of_mem j hx))

/-- The identifiers of the records accepted by the filter loop are pairwise
distinct and none of them is an already-persisted identifier. -/
theorem filterDupLoop_res_ids (existing : List String) (needed : Int) :
    ∀ (batch : List RawJob) (processed : List String) (acc : List RawJob),
      (acc.filterMap (fun r => truthy r.id)).Nodup →
      (∀ jid ∈ acc.filterMap (fun r => truthy r.id), jid ∈ processed) →
      (∀ jid ∈ acc.filterMap (fun r => truthy r.id), jid ∉ existing) →
      ((filterDupLoop existing needed processed acc batch).filterMap
          (fun r => truthy r.id)).Nodup ∧
      (∀ jid ∈ (filterDupLoop existing needed processed acc batch).filterMap
          (fun r => truthy r.id), jid ∉ existing) := by
  intro batch
  induction batch with
  | nil =>
    intro processed acc h1 h2 h3
    rw [filterDupLoop]
    exact ⟨h1, h3⟩
  | cons j rest ih =>
    intro processed acc h1 h2 h3
    rw [filterDupLoop]
    split
    · exact ih processed acc h1 h2 h3
    · rename_i jid0 htr
      split
      · exact ih processed acc h1 h2 h3
      · rename_i hnin
        split
        · exact ih processed acc h1 h2 h3
        · rename_i hproc
          have hids : (acc ++ [j]).filterMap (fun r => truthy r.id) =
              acc.filterMap (fun r => truthy r.id) ++ [jid0] := by
            rw [List.filterMap_append]
            simp [htr]
          have h1n : ((acc ++ [j]).filterMap (fun r => truthy r.id)).Nodup := by
            rw [hids, List.nodup_append]
            refine ⟨h1, List.nodup_singleton jid0, ?_⟩
            intro x hx hx2
            simp only [List.mem_singleton] at hx2
            subst hx2
            exact hproc (h2 x hx)
          have h3n : ∀ jid ∈ (acc ++ [j]).filterMap (fun r => truthy r.id),
              jid ∉ existing := by
            rw [hids]
            intro x hx
            rcases List.mem_append.mp hx with hx | hx
            · exact h3 x hx
            · simp only [List.mem_singleton] at hx
              subst hx
              exact hnin
          split
          · exact ⟨h1n, h3n⟩
          · apply ih (jid0 :: processed) (acc ++ [j]) h1n _ h3n
            rw [hids]
            intro x hx
            rcases List.mem_append.mp hx with hx | hx
            · exact List.mem_cons_of_mem jid0 (h2 x hx)
            · simp only [List.mem_singleton] at hx
              rw [hx]
              exact List.mem_cons_self jid0 processed

/-- With `additional_needed ≤ 0`, a batch of id-carrying records containing at
least one fresh identifier makes the loop accept exactly one record: the cap
is only tested after the first append. -/
theorem filterDupLoop_zero_needed (existing : List String) (needed : Int)
    (hn : needed ≤ 0) :
    ∀ (batch : List RawJob),
      (∀ r ∈ batch, truthy r.id ≠ none) →
      (∃ r ∈ batch, ∃ jid, truthy r.id = some jid ∧ jid ∉ existing) →
      (filterDupLoop existing needed [] [] batch).length = 1 := by
  intro batch
  induction batch with
  | nil =>
    rintro _ ⟨r, hr, _⟩
    exact absurd hr (List.not_mem_nil r)
  | cons j rest ih =>
    intro hall hex
    rw [filterDupLoop]
    split
    · rename_i htr
      exact absurd htr (hall j (List.mem_cons_self j rest))
    · rename_i jid0 htr
      by_cases h1 : jid0 ∈ existing
      · rw [if_pos h1]
        apply ih (fun r hr => hall r (List.mem_cons_of_mem j hr))
        rcases hex with ⟨r, hr, jid2, hjid2, hnotin⟩
        rcases List.mem_cons.mp hr with rfl | hr
        · rw [htr] at hjid2
          injection hjid2 with hq
          subst hq
          exact absurd h1 hnotin
        · exact ⟨r, hr, jid2, hjid2, hnotin⟩
      · rw [if_neg h1, if_neg (List.not_mem_nil jid0)]
        rw [if_pos (by simp; omega)]
        simp

/-- Once the accumulator is strictly below the cap, the loop's result never
exceeds the cap. -/
theorem filterDupLoop_cap (existing : List String) (needed : Int) :
    ∀ (batch : List RawJob) (processed : List String) (acc : List RawJob),
      (acc.length : Int) < needed →
      ((filterDupLoop existing needed processed acc batch).length : Int) ≤
        needed := by
  intro batch
  induction batch with
  | nil =>
    intro processed acc h
    rw [filterDupLoop]
    omega
  | cons j rest ih =>
    intro processed acc h
    rw [filterDupLoop]
    split
    · exact ih processed acc h
    · rename_i jid htr
      split
      · exact ih processed acc h
      · split
        · exact ih processed acc h
        · split
          · rename_i hbreak
            simp only [List.length_append, List.length_singleton]
            push_cast
            omega
          · rename_i hbreak
            apply ih (jid :: processed) (acc ++ [j])
            omega

/-- The individual-save loop preserves identifier uniqueness from any starting
store. -/
theorem saveIndLoop_nodup (f : Nat → Bool) :
    ∀ (jobs : List Job) (n : Nat) (store : Store) (s d : Nat),
      (storeIds store).Nodup →
      (storeIds (saveIndLoop f n store s d jobs).store).Nodup := by
  intro jobs
  induction jobs with
  | nil =>
    intro n store s d h
    rw [saveIndLoop]
    exact h
  | cons j rest ih =>
    intro n store s d h
    rw [saveIndLoop]
    split
    · exact ih (n + 1) store s d h
    · split
      · rename_i jid hj
        split
        · exact ih _ store s _ h
        · rename_i hmem
          exact ih _ _ _ _ (nodup_append_fresh h hj hmem)
      · rename_i hj
        apply ih
        rw [storeIds_append]
        have hnil : storeIds [j] = [] := by simp [storeIds, hj]
        rw [hnil, List.append_nil]
        exact h

/-- Skipping malformed records: the constructed records plus the malformed
ones exhaust the batch. -/
theorem filterMap_construct_length :
    ∀ batch : List RawJob,
      (batch.filterMap constructJob).length +
        batch.countP (fun r => r.malformed) = batch.length := by
  intro batch
  induction batch with
  | nil => rfl
  | cons r rest ih =>
    cases hm : r.malformed with
    | true =>
      simp only [List.filterMap_cons, constructJob, hm, List.countP_cons,
        List.length_cons, if_true, List.length_nil]
      omega
    | false =>
      simp only [List.filterMap_cons, constructJob, hm, List.countP_cons,
        List.length_cons, Bool.false_eq_true, if_false]
      omega

/-- tenacity wait after the first attempt: clamped up to the minimum of 4. -/
theorem waitExp_one : waitExponential 1 4 10 1 = 4 := by decide

/-- tenacity wait after the second attempt. -/
theorem waitExp_two : waitExponential 1 4 10 2 = 4 := by decide

/-- The retry loop makes at most `n + remaining` attempts when started at
attempt `n`. -/
theorem retryAux_attempts_le {α : Type} (att : Nat → AttemptResult α) :
    ∀ (remaining n : Nat) (waits : List Nat),
      (retryAux att remaining n waits).attemptsMade ≤ n + remaining := by
  intro remaining
  induction remaining with
  | zero =>
    intro n waits
    rw [retryAux]
    split
    · simp [RetryOutcome.attemptsMade]
    · split
      · simp [RetryOutcome.attemptsMade]
      · simp [RetryOutcome.attemptsMade]
  | succ r ih =>
    intro n waits
    rw [retryAux]
    split
    · simp [RetryOutcome.attemptsMade]
    · split
      · simp [RetryOutcome.attemptsMade]
      · calc (retryAux att r (n + 1) _).attemptsMade ≤ (n + 1) + r :=
            ih (n + 1) _
          _ = n + (r + 1) := by omega

/-! ### Concrete fixtures -/

/-- A well-formed scraped record carrying provider identifier `s`. -/
def mkRaw (s : String) : RawJob :=
  { id := some s, title := some "t", company := some "c",
    description := some "d", location := none, job_type := none,
    is_remote := none, date_posted := none, malformed := false }

/-- A well-formed scraped record with no provider identifier. -/
def rawNoId : RawJob :=
  { id := none, title := some "t", company := some "c",
    description := some "d", location := none, job_type := none,
    is_remote := none, date_posted := none, malformed := false }

/-- A malformed scraped record: `Job(**job_dict)` raises on it. -/
def rawBad : RawJob :=
  { id := some "bad", title := none, company := none, description := none,
    location := none, job_type := none, is_remote := none, date_posted := none,
    malformed := true }

/-- The C5 scenario batch: seven records with fresh identifiers a..g. -/
def batch7 : List RawJob := ["a", "b", "c", "d", "e", "f", "g"].map mkRaw

/-- The C5 scenario request: filterless search with `results_wanted = 5`. -/
def req5 : SearchRequest :=
  { search_term := "", location := "", is_remote := false, results_wanted := 5,
    job_type := "", hours_old := 72, offset := 0 }

/-- A persisted record whose title matches the single term `java`. -/
def javaJob : Job :=
  { job_id := none, title := some "java developer", company := none,
    description := none, location := none, job_type := none, is_remote := none,
    date_posted := none }

/-! ### Claims -/

/-- C1: the claim states that whenever the store query yields fewer than
`resultsWanted` records, the pipeline invokes the external job source for at
least `additionalNeeded = resultsWanted - |storeMatches|` records and merges
them after the store records, and that the store-only bypass is not the
specified behaviour.  The code violates this: the active `search_jobs` path
returns store-only results for every request and store, with `scraped = 0`
and a `scraper_bypassed` marker; the fetch-and-reconcile branch
(controller.py lines 74-116) is commented out and unreachable.  This theorem
evaluates the code path, exhibiting the divergence. -/
theorem C1_scraper_bypassed (now : Int) (store : Store) (req : SearchRequest) :
    (search_jobs now store req).source.scraped = 0 ∧
    (search_jobs now store req).debug_mode = some "scraper_bypassed" ∧
    (search_jobs now store req).source.total =
      (search_jobs now store req).jobs.length ∧
    ((search_jobs now store req).jobs = get_jobs_from_database now store req ∨
     (search_jobs now store req).jobs =
       (get_jobs_from_database now store req).take req.results_wanted) := by
  refine ⟨rfl, rfl, rfl, ?_⟩
  unfold search_jobs
  by_cases h : (get_jobs_from_database now store req).length > req.results_wanted
  · right
    simp only [if_pos h]
  · left
    simp only [if_neg h]

/-- C4 counterexample: a batch whose only record lacks a provider identifier
is returned whole by `_filter_duplicate_jobs` (the no-identifier early
return), and the persistence path then stores the record -- so a record
lacking a provider identifier is both accepted and persisted, refuting the
claim for batches in which no record carries an identifier. -/
theorem C4_counterexample :
    filter_duplicate_jobs [] [rawNoId] 1 = [rawNoId] ∧
    (outcomeStore (save_jobs_to_database false (fun _ => false) []
        (filter_duplicate_jobs [] [rawNoId] 1))).length = 1 := by
  refine ⟨by decide, by decide⟩

/-- C4 amended: every fetched record lacking a (truthy) provider identifier
is discarded by deduplication provided at least one record of the batch
carries one; when no record carries an identifier the batch is instead passed
through unfiltered, truncated to `additional_needed`. -/
theorem C4_amended (store : Store) (batch : List RawJob) (needed : Int) :
    (scraperJobIds batch ≠ [] →
      ∀ r ∈ filter_duplicate_jobs store batch needed, truthy r.id ≠ none) ∧
    (scraperJobIds batch = [] →
      filter_duplicate_jobs store batch needed = pyTake needed batch) := by
  constructor
  · intro hids r hr
    unfold filter_duplicate_jobs at hr
    by_cases h0 : batch = []
    · rw [if_pos h0] at hr
      exact absurd hr (List.not_mem_nil r)
    · rw [if_neg h0, if_neg hids] at hr
      exact filterDupLoop_id_present _ _ batch [] []
        (fun x hx => absurd hx (List.not_mem_nil x)) r hr
  · intro hids
    unfold filter_duplicate_jobs
    by_cases h0 : batch = []
    · rw [if_pos h0, h0]
      simp [pyTake]
    · rw [if_neg h0, if_pos hids]

/-- Witness for C4_amended: a concrete id-carrying survivor, and a concrete
id-less batch passed through as a slice. -/
theorem C4_amended_witness :
    truthy (mkRaw "a").id ≠ none ∧
    filter_duplicate_jobs [] [rawNoId, rawNoId] 3 = pyTake 3 [rawNoId, rawNoId] :=
  ⟨(C4_amended [] [mkRaw "a", rawNoId] 5).1 (by decide) (mkRaw "a") (by decide),
   (C4_amended [] [rawNoId, rawNoId] 3).2 (by decide)⟩

/-- C5: the deduplication engine behaves as claimed on the scenario in
isolation -- with an empty store and seven fresh identifiers a..g under cap 5,
exactly the first five records are accepted, and persisting the survivors
stores five records -- but the pipeline never reaches it: the active
`search_jobs` on the empty store returns zero jobs with provenance
database 0 / scraped 0 / total 0 instead of the claimed
database 0 / scraped 5 / total 5, because the scraper is bypassed. -/
theorem C5_scenario_bug :
    filter_duplicate_jobs [] batch7 5 = ["a", "b", "c", "d", "e"].map mkRaw ∧
    (outcomeStore (save_jobs_to_database false (fun _ => false) []
        (filter_duplicate_jobs [] batch7 5))).length = 5 ∧
    search_jobs 0 [] req5 =
      { jobs := [],
        source := { database := 0, scraped := 0, total := 0 },
        debug_mode := some "scraper_bypassed" } := by
  refine ⟨by decide, by decide, by decide⟩

/-- C10: called with `additional_needed ≤ 0` on a batch of id-carrying
records at least one of which is fresh, the filter returns exactly one record
(the cap is tested only after an append); for `additional_needed ≥ 1` the
output never exceeds `additional_needed`. -/
theorem C10_cap_boundary :
    (∀ (store : Store) (batch : List RawJob) (needed : Int), needed ≤ 0 →
      (∀ r ∈ batch, truthy r.id ≠ none) →
      (∃ r ∈ batch, ∃ jid, truthy r.id = some jid ∧ jid ∉ storeIds store) →
      (filter_duplicate_jobs store batch needed).length = 1) ∧
    (∀ (store : Store) (batch : List RawJob) (needed : Int), 1 ≤ needed →
      ((filter_duplicate_jobs store batch needed).length : Int) ≤ needed) := by
  constructor
  · intro store batch needed hn hall hex
    have hne : batch ≠ [] := by
      rcases hex with ⟨r, hr, _⟩
      intro h
      rw [h] at hr
      exact List.not_mem_nil r hr
    have hids : scraperJobIds batch ≠ [] := by
      rcases hex with ⟨r, hr, jid, hjid, _⟩
      intro h
      have hmem : jid ∈ scraperJobIds batch :=
        List.mem_filterMap.mpr ⟨r, hr, hjid⟩
      rw [h] at hmem
      exact List.not_mem_nil jid hmem
    unfold filter_duplicate_jobs
    rw [if_neg hne, if_neg hids]
    apply filterDupLoop_zero_needed _ _ hn batch hall
    rcases hex with ⟨r, hr, jid, hjid, hfresh⟩
    refine ⟨r, hr, jid, hjid, ?_⟩
    intro hmem
    unfold existingJobIds at hmem
    rcases List.mem_filter.mp hmem with ⟨hmem1, _⟩
    exact hfresh hmem1
  · intro store batch needed hn
    unfold filter_duplicate_jobs
    by_cases h0 : batch = []
    · rw [if_pos h0]
      simp
      omega
    · rw [if_neg h0]
      by_cases h1 : scraperJobIds batch = []
      · rw [if_pos h1]
        unfold pyTake
        rw [if_pos (by omega)]
        have hlen := List.length_take_le needed.toNat batch
        omega
      · rw [if_neg h1]
        exact filterDupLoop_cap _ _ batch [] [] (by simp; omega)

/-- Witness for C10_cap_boundary: cap 0 still returns one record; cap 5 is
respected on the seven-record batch. -/
theorem C10_cap_boundary_witness :
    (filter_duplicate_jobs [] [mkRaw "a", mkRaw "b"] 0).length = 1 ∧
    ((filter_duplicate_jobs [] batch7 5).length : Int) ≤ 5 :=
  ⟨C10_cap_boundary.1 [] [mkRaw "a", mkRaw "b"] 0 (by decide) (by decide)
      ⟨mkRaw "a", by decide, "a", by decide, by decide⟩,
   C10_cap_boundary.2 [] batch7 5 (by decide)⟩

/-- C7: the external fetch is retried only on transient failures (the
`RetryError`/`RequestException` class), making at most 3 attempts total; a
non-transient failure propagates immediately after the first attempt with no
retry; three transient failures exhaust the budget after exactly 3 attempts
with backoff waits of 4 then 4 time units; a transient failure followed by a
success retries once after a 4-unit wait; every backoff wait lies between the
floor 4 and the cap 10, starting at 4. -/
theorem C7_retry_policy :
    (∀ (α : Type) (att : Nat → AttemptResult α) (e : ExcType),
      att 1 = .failure e → isRetryableExc e = false →
      scrapeWithRetry att = .propagated e 1 []) ∧
    (∀ (α : Type) (att : Nat → AttemptResult α) (e1 e2 e3 : ExcType),
      att 1 = .failure e1 → att 2 = .failure e2 → att 3 = .failure e3 →
      isRetryableExc e1 = true → isRetryableExc e2 = true →
      isRetryableExc e3 = true →
      scrapeWithRetry att = .exhausted e3 3 [4, 4]) ∧
    (∀ (α : Type) (att : Nat → AttemptResult α) (e : ExcType) (v : α),
      att 1 = .failure e → isRetryableExc e = true → att 2 = .success v →
      scrapeWithRetry att = .succeeded v 2 [4]) ∧
    (∀ (α : Type) (att : Nat → AttemptResult α),
      (scrapeWithRetry att).attemptsMade ≤ 3) ∧
    (∀ n : Nat, 1 ≤ n →
      4 ≤ waitExponential 1 4 10 n ∧ waitExponential 1 4 10 n ≤ 10) ∧
    waitExponential 1 4 10 1 = 4 := by
  refine ⟨?_, ?_, ?_, ?_, ?_, waitExp_one⟩
  · intro α att e h hr
    simp [scrapeWithRetry, retryAux, h, hr]
  · intro α att e1 e2 e3 h1 h2 h3 hr1 hr2 hr3
    simp [scrapeWithRetry, retryAux, h1, h2, h3, hr1, hr2, hr3,
      waitExp_one, waitExp_two]
  · intro α att e v h1 hr1 h2
    simp [scrapeWithRetry, retryAux, h1, hr1, h2, waitExp_one]
  · intro α att
    simpa using retryAux_attempts_le att 2 1 []
  · intro n hn
    unfold waitExponential
    exact ⟨Nat.le_max_left 4 _,
      Nat.max_le.mpr ⟨by norm_num, Nat.min_le_left 10 _⟩⟩

/-- Witness for C7_retry_policy: a non-transient failure propagates after one
attempt; persistent transient failures exhaust after 3 attempts with waits
4, 4; a transient failure then a success delivers after 2 attempts. -/
theorem C7_retry_policy_witness :
    scrapeWithRetry (fun _ => AttemptResult.failure (α := Nat) ExcType.valueError) =
      RetryOutcome.propagated ExcType.valueError 1 [] ∧
    scrapeWithRetry
        (fun _ => AttemptResult.failure (α := Nat) ExcType.requestException) =
      RetryOutcome.exhausted ExcType.requestException 3 [4, 4] ∧
    scrapeWithRetry
        (fun n => if n = 1 then AttemptResult.failure ExcType.retryError
          else AttemptResult.success 42) =
      RetryOutcome.succeeded 42 2 [4] :=
  ⟨C7_retry_policy.1 Nat _ ExcType.valueError rfl rfl,
   C7_retry_policy.2.1 Nat _ ExcType.requestException ExcType.requestException
     ExcType.requestException rfl rfl rfl rfl rfl rfl,
   C7_retry_policy.2.2.1 Nat _ ExcType.retryError 42 rfl rfl rfl⟩

/-- A two-lexeme conjunctive query matches a field iff each single-lexeme
query matches it. -/
theorem fieldMatch_pair (f : Option String) (a b : String) :
    fieldMatch f [a, b] = (fieldMatch f [a] && fieldMatch f [b]) := by
  simp [fieldMatch, tsMatch]

/-- C8 counterexample: the record `javaJob` matches the single term `java`
(one of the two alternatives), yet does not match the query `java OR rust`:
`plainto_tsquery` discards `OR` as an english stop word and conjoins the
remaining lexemes, so a record matching only one alternative does not
qualify, refuting the claim that a record matching either alternative
qualifies. -/
theorem C8_counterexample :
    fullTextCondition "java" javaJob = true ∧
    fullTextCondition "java OR rust" javaJob = false := by
  refine ⟨by decide, by decide⟩

/-- C8 amended: an absent field contributes no match to the full-text
condition (and can cause no error, the condition being total); multi-term
queries are accepted but combined conjunctively: `OR` is discarded as a stop
word, so `java OR rust` is equivalent to `java rust` and a matching record
must match both terms. -/
theorem C8_amended :
    (∀ q : List String, fieldMatch none q = false) ∧
    (∀ j : Job, fullTextCondition "java OR rust" j =
      fullTextCondition "java rust" j) ∧
    (∀ j : Job, fullTextCondition "java OR rust" j = true →
      fullTextCondition "java" j = true ∧ fullTextCondition "rust" j = true) := by
  have hq1 : plaintoTsquery "java OR rust" = ["java", "rust"] := by decide
  have hq2 : plaintoTsquery "java rust" = ["java", "rust"] := by decide
  have hq3 : plaintoTsquery "java" = ["java"] := by decide
  have hq4 : plaintoTsquery "rust" = ["rust"] := by decide
  refine ⟨?_, ?_, ?_⟩
  · intro q
    have hv : toTsvector (coalesce none) = [] := rfl
    cases q with
    | nil => rfl
    | cons w ws =>
      unfold fieldMatch
      rw [hv]
      simp [tsMatch]
  · intro j
    unfold fullTextCondition
    rw [hq1, hq2]
  · intro j h
    unfold fullTextCondition at h ⊢
    rw [hq1, fieldMatch_pair, fieldMatch_pair, fieldMatch_pair] at h
    rw [hq3, hq4]
    revert h
    cases fieldMatch j.title ["java"] <;> cases fieldMatch j.title ["rust"] <;>
      cases fieldMatch j.company ["java"] <;>
      cases fieldMatch j.company ["rust"] <;>
      cases fieldMatch j.description ["java"] <;>
      cases fieldMatch j.description ["rust"] <;> simp

/-- A record whose title contains both terms of the conjoined query. -/
def javaRustJob : Job :=
  { job_id := none, title := some "java rust developer", company := none,
    description := none, location := none, job_type := none, is_remote := none,
    date_posted := none }

/-- Witness for C8_amended: a record matching `java OR rust` matches both
single terms. -/
theorem C8_amended_witness :
    fullTextCondition "java" javaRustJob = true ∧
    fullTextCondition "rust" javaRustJob = true :=
  C8_amended.2.2 javaRustJob (by decide)

/-- A persisted record with provider identifier `a` (as stored by the
pipeline from `mkRaw "a"`). -/
def jobA : Job :=
  { job_id := some "a", title := some "t", company := some "c",
    description := some "d", location := none, job_type := none,
    is_remote := none, date_posted := none }

/-- C2: after any execution of the persistence path -- bulk commit, or bulk
conflict followed by per-record replay -- the persisted non-null provider
identifiers remain pairwise distinct, and a uniqueness conflict is never the
propagated error of a fatal outcome: persisting a duplicate cannot corrupt
the store and is not fatal. -/
theorem C2_provider_id_unique (bf : Bool) (f : Nat → Bool) (store : Store)
    (batch : List RawJob) (h : (storeIds store).Nodup) :
    (storeIds (outcomeStore (save_jobs_to_database bf f store batch))).Nodup ∧
    outcomeFatalUnique (save_jobs_to_database bf f store batch) = false := by
  unfold save_jobs_to_database
  by_cases h0 : batch = []
  · rw [if_pos h0]
    exact ⟨h, rfl⟩
  · rw [if_neg h0]
    by_cases h1 : batch.filterMap constructJob = []
    · rw [if_pos h1]
      exact ⟨h, rfl⟩
    · rw [if_neg h1]
      by_cases h2 : bf = true
      · rw [if_pos h2]
        exact ⟨h, rfl⟩
      · rw [if_neg h2]
        by_cases h3 : bulkConflict store (batch.filterMap constructJob) = true
        · rw [if_pos h3]
          exact ⟨saveIndLoop_nodup f _ 0 store 0 0 h, rfl⟩
        · rw [if_neg h3]
          refine ⟨?_, rfl⟩
          simp only [outcomeStore, storeIds_append]
          by_contra hno
          apply h3
          unfold bulkConflict
          rw [decide_eq_false hno]
          rfl

/-- Witness for C2_provider_id_unique on a batch whose first record collides
with the store (bulk conflict, resolved by individual replay). -/
theorem C2_provider_id_unique_witness :
    (storeIds (outcomeStore (save_jobs_to_database false (fun _ => false)
        [jobA] [mkRaw "a", mkRaw "b"]))).Nodup ∧
    outcomeFatalUnique (save_jobs_to_database false (fun _ => false)
        [jobA] [mkRaw "a", mkRaw "b"]) = false :=
  C2_provider_id_unique false (fun _ => false) [jobA] [mkRaw "a", mkRaw "b"]
    (by decide)

/-- C3: a bulk uniqueness conflict is rolled back and replayed as individual
single-record transactions (never fatal); a non-conflict bulk failure is
rolled back and propagated as fatal with the store unchanged; within the
replay, a non-faulted record whose identifier already exists is skipped as a
counted duplicate and processing continues with the remaining records, and an
environmentally faulted record is skipped without a count and processing
continues -- no individual failure aborts the remaining records. -/
theorem C3_conflict_fallback :
    (∀ (f : Nat → Bool) (store : Store) (batch : List RawJob),
      batch ≠ [] → batch.filterMap constructJob ≠ [] →
      save_jobs_to_database true f store batch =
        SaveOutcome.fatal DBErr.other store) ∧
    (∀ (f : Nat → Bool) (store : Store) (batch : List RawJob),
      batch ≠ [] →
      bulkConflict store (batch.filterMap constructJob) = true →
      save_jobs_to_database false f store batch =
        SaveOutcome.ok (save_jobs_individually f store
          (batch.filterMap constructJob))) ∧
    (∀ (f : Nat → Bool) (n : Nat) (store : Store) (s d : Nat) (j : Job)
        (rest : List Job) (jid : String),
      f n = false → j.job_id = some jid → jid ∈ storeIds store →
      saveIndLoop f n store s d (j :: rest) =
        saveIndLoop f (n + 1) store s (d + 1) rest) ∧
    (∀ (f : Nat → Bool) (n : Nat) (store : Store) (s d : Nat) (j : Job)
        (rest : List Job),
      f n = true →
      saveIndLoop f n store s d (j :: rest) =
        saveIndLoop f (n + 1) store s d rest) := by
  refine ⟨?_, ?_, ?_, ?_⟩
  · intro f store batch h0 h1
    unfold save_jobs_to_database
    rw [if_neg h0, if_neg h1, if_pos rfl]
  · intro f store batch h0 hc
    unfold save_jobs_to_database
    rw [if_neg h0]
    by_cases h1 : batch.filterMap constructJob = []
    · rw [if_pos h1, h1]
      rfl
    · rw [if_neg h1, if_neg (by simp), if_pos hc]
  · intro f n store s d j rest jid hf hj hmem
    rw [saveIndLoop]
    simp [hf, hj, hmem]
  · intro f n store s d j rest hf
    rw [saveIndLoop]
    simp [hf]

/-- Witness for C3_conflict_fallback: each of the four control-flow facts at
a concrete input. -/
theorem C3_conflict_fallback_witness :
    save_jobs_to_database true (fun _ => false) [jobA] [mkRaw "b"] =
      SaveOutcome.fatal DBErr.other [jobA] ∧
    save_jobs_to_database false (fun _ => false) [jobA]
        [mkRaw "a", mkRaw "b"] =
      SaveOutcome.ok (save_jobs_individually (fun _ => false) [jobA]
        ([mkRaw "a", mkRaw "b"].filterMap constructJob)) ∧
    saveIndLoop (fun _ => false) 0 [jobA] 0 0 [jobA] =
      saveIndLoop (fun _ => false) 1 [jobA] 0 1 [] ∧
    saveIndLoop (fun _ => true) 0 [] 0 0 [jobA] =
      saveIndLoop (fun _ => true) 1 [] 0 0 [] :=
  ⟨C3_conflict_fallback.1 (fun _ => false) [jobA] [mkRaw "b"] (by decide)
      (by decide),
   C3_conflict_fallback.2.1 (fun _ => false) [jobA] [mkRaw "a", mkRaw "b"]
      (by decide) (by decide),
   C3_conflict_fallback.2.2.1 (fun _ => false) 0 [jobA] 0 0 jobA [] "a" rfl
      rfl (by decide),
   C3_conflict_fallback.2.2.2 (fun _ => true) 0 [] 0 0 jobA [] rfl⟩

/-- C9: a batch with exactly one malformed record among N persists exactly
the N-1 well-formed records: the malformed record is dropped at construction
time, before any transaction, and a conflict-free bulk commit appends the
N-1 constructed records -- the malformed record aborts neither the batch nor
the request. -/
theorem C9_malformed_skipped (f : Nat → Bool) (store : Store)
    (batch : List RawJob)
    (h1 : batch.countP (fun r => r.malformed) = 1)
    (h2 : bulkConflict store (batch.filterMap constructJob) = false) :
    save_jobs_to_database false f store batch =
      SaveOutcome.ok ⟨store ++ batch.filterMap constructJob,
        (batch.filterMap constructJob).length, 0⟩ ∧
    (batch.filterMap constructJob).length + 1 = batch.length := by
  have hlen := filterMap_construct_length batch
  have hne : batch ≠ [] := by
    intro h
    rw [h] at h1
    simp at h1
  constructor
  · unfold save_jobs_to_database
    rw [if_neg hne]
    by_cases hn1 : batch.filterMap constructJob = []
    · rw [if_pos hn1]
      simp [hn1]
    · rw [if_neg hn1, if_neg (by simp), if_neg (by simp [h2])]
  · omega

/-- Witness for C9_malformed_skipped: three records, one malformed, two
persisted. -/
theorem C9_malformed_skipped_witness :
    save_jobs_to_database false (fun _ => false) []
        [mkRaw "a", rawBad, mkRaw "b"] =
      SaveOutcome.ok ⟨[] ++ [mkRaw "a", rawBad, mkRaw "b"].filterMap constructJob,
        ([mkRaw "a", rawBad, mkRaw "b"].filterMap constructJob).length, 0⟩ ∧
    ([mkRaw "a", rawBad, mkRaw "b"].filterMap constructJob).length + 1 =
      ([mkRaw "a", rawBad, mkRaw "b"] : List RawJob).length :=
  C9_malformed_skipped (fun _ => false) [] [mkRaw "a", rawBad, mkRaw "b"]
    (by decide) (by decide)

/-- For well-formed records with truthy identifiers, the persisted
identifiers are exactly the records' truthy identifiers: the save path maps
the scraper `id` onto `job_id`. -/
theorem storeIds_construct :
    ∀ l : List RawJob,
      (∀ r ∈ l, r.malformed = false) →
      (∀ r ∈ l, truthy r.id ≠ none) →
      storeIds (l.filterMap constructJob) =
        l.filterMap (fun r => truthy r.id) := by
  intro l
  induction l with
  | nil => intro _ _; rfl
  | cons r rest ih =>
    intro hwf hid
    have hm : r.malformed = false := hwf r (List.mem_cons_self r rest)
    have ht : truthy r.id ≠ none := hid r (List.mem_cons_self r rest)
    have htail := ih (fun x hx => hwf x (List.mem_cons_of_mem r hx))
      (fun x hx => hid x (List.mem_cons_of_mem r hx))
    rcases e : r.id with _ | s
    · exfalso
      apply ht
      rw [e]
      rfl
    · by_cases hs : s = ""
      · exfalso
        apply ht
        rw [e]
        simp [truthy, hs]
      · have hc : constructJob r = some
            { job_id := r.id, title := r.title, company := r.company,
              description := r.description, location := r.location,
              job_type := r.job_type, is_remote := r.is_remote,
              date_posted := r.date_posted } := by
          simp [constructJob, hm]
        have htr : truthy r.id = some s := by
          rw [e]
          simp [truthy, hs]
        simp only [List.filterMap_cons, hc, htr]
        unfold storeIds
        simp only [List.filterMap_cons, e]
        rw [← htail]
        rfl

/-- A conflict-free batch is committed by the fast bulk path: the resulting
store is the input store followed by the constructed records. -/
theorem outcomeStore_save_no_conflict (f : Nat → Bool) (store : Store)
    (l : List RawJob)
    (h : (storeIds store ++ storeIds (l.filterMap constructJob)).Nodup) :
    outcomeStore (save_jobs_to_database false f store l) =
      store ++ l.filterMap constructJob := by
  unfold save_jobs_to_database
  by_cases h0 : l = []
  · rw [if_pos h0, h0]
    simp [outcomeStore]
  · rw [if_neg h0]
    by_cases h1 : l.filterMap constructJob = []
    · rw [if_pos h1, h1]
      simp [outcomeStore]
    · rw [if_neg h1, if_neg (by simp)]
      rw [if_neg (by unfold bulkConflict; rw [decide_eq_true h]; simp)]
      simp [outcomeStore]

/-- C6 counterexample: deduplication-and-persist is not idempotent.  First,
cap truncation: with two fresh records and `additionalNeeded = 1` the first
engine pass accepts and persists only the first record, and the second pass
over the identical batch against the resulting store accepts the second
record -- one newly accepted record, not zero.  Second, an identifier-less
batch is passed through unfiltered on every pass, so the second pass accepts
the same record again. -/
theorem C6_counterexample :
    (engineOnce [] [mkRaw "a", mkRaw "b"] 1).1 = [mkRaw "a"] ∧
    filter_duplicate_jobs (engineOnce [] [mkRaw "a", mkRaw "b"] 1).2
      [mkRaw "a", mkRaw "b"] 1 = [mkRaw "b"] ∧
    filter_duplicate_jobs (engineOnce [] [rawNoId] 1).2 [rawNoId] 1 =
      [rawNoId] := by
  refine ⟨by decide, by decide, by decide⟩

/-- C6 amended: one fault-free engine pass (deduplicate then persist the
survivors) followed by a second pass over the identical batch accepts zero
records on the second pass, provided the store satisfies its uniqueness
invariant, at least one batch record carries a provider identifier, every
first-pass survivor is well-formed (so it is actually persisted), and the
first pass accepts strictly fewer than `additionalNeeded` records (so no
record is dropped by the cap). -/
theorem C6_idempotent_amended (store : Store) (batch : List RawJob)
    (needed : Int)
    (hstore : (storeIds store).Nodup)
    (hids : scraperJobIds batch ≠ [])
    (hwf : ∀ r ∈ filter_duplicate_jobs store batch needed, r.malformed = false)
    (hcap : ((filter_duplicate_jobs store batch needed).length : Int) < needed) :
    filter_duplicate_jobs (engineOnce store batch needed).2 batch needed = [] := by
  have hne : batch ≠ [] := by
    intro h
    apply hids
    rw [h]
    rfl
  have haccept : filter_duplicate_jobs store batch needed =
      filterDupLoop (existingJobIds store (scraperJobIds batch)) needed [] []
        batch := by
    unfold filter_duplicate_jobs
    rw [if_neg hne, if_neg hids]
  have hidp : ∀ r ∈ filter_duplicate_jobs store batch needed,
      truthy r.id ≠ none := by
    rw [haccept]
    exact filterDupLoop_id_present _ _ batch [] []
      (fun x hx => absurd hx (List.not_mem_nil x))
  have hmemb : ∀ r ∈ filter_duplicate_jobs store batch needed, r ∈ batch := by
    rw [haccept]
    intro r hr
    rcases filterDupLoop_mem _ _ batch [] [] r hr with h | h
    · exact absurd h (List.not_mem_nil r)
    · exact h
  have hresids := filterDupLoop_res_ids
    (existingJobIds store (scraperJobIds batch)) needed batch [] []
    List.nodup_nil (fun jid hj => absurd hj (List.not_mem_nil jid))
    (fun jid hj => absurd hj (List.not_mem_nil jid))
  rw [← haccept] at hresids
  have hfresh : ∀ jid ∈ (filter_duplicate_jobs store batch needed).filterMap
      (fun r => truthy r.id), jid ∉ storeIds store := by
    intro jid hjid hmem
    rcases List.mem_filterMap.mp hjid with ⟨r, hr, htr⟩
    have hin : jid ∈ scraperJobIds batch :=
      List.mem_filterMap.mpr ⟨r, hmemb r hr, htr⟩
    apply hresids.2 jid hjid
    unfold existingJobIds
    exact List.mem_filter.mpr ⟨hmem, by simpa using hin⟩
  have hsids : storeIds ((filter_duplicate_jobs store batch needed).filterMap
      constructJob) = (filter_duplicate_jobs store batch needed).filterMap
      (fun r => truthy r.id) :=
    storeIds_construct _ hwf hidp
  have hall : (storeIds store ++ storeIds
      ((filter_duplicate_jobs store batch needed).filterMap
        constructJob)).Nodup := by
    rw [hsids, List.nodup_append]
    exact ⟨hstore, hresids.1, fun x hx hx2 => hfresh x hx2 hx⟩
  have hstore2 : (engineOnce store batch needed).2 =
      store ++ (filter_duplicate_jobs store batch needed).filterMap
        constructJob := by
    have heng : (engineOnce store batch needed).2 =
        outcomeStore (save_jobs_to_database false (fun _ => false) store
          (filter_duplicate_jobs store batch needed)) := rfl
    rw [heng]
    exact outcomeStore_save_no_conflict _ store _ hall
  have hids2 : storeIds (engineOnce store batch needed).2 =
      storeIds store ++ (filter_duplicate_jobs store batch needed).filterMap
        (fun r => truthy r.id) := by
    rw [hstore2, storeIds_append, hsids]
  unfold filter_duplicate_jobs
  rw [if_neg hne, if_neg hids]
  apply filterDupLoop_all_skipped
  intro j hj jid hjid
  have hcov := filterDupLoop_covers
    (existingJobIds store (scraperJobIds batch)) needed batch [] []
    (filter_duplicate_jobs store batch needed) haccept.symm hcap j hj jid hjid
  have hinids : jid ∈ scraperJobIds batch :=
    List.mem_filterMap.mpr ⟨j, hj, hjid⟩
  rcases hcov with h | h | h
  · unfold existingJobIds at h
    rcases List.mem_filter.mp h with ⟨hmem1, _⟩
    unfold existingJobIds
    refine List.mem_filter.mpr ⟨?_, by simpa using hinids⟩
    rw [hids2]
    exact List.mem_append.mpr (Or.inl hmem1)
  · exact absurd h (List.not_mem_nil jid)
  · unfold existingJobIds
    refine List.mem_filter.mpr ⟨?_, by simpa using hinids⟩
    rw [hids2]
    exact List.mem_append.mpr (Or.inr h)

/-- Witness for C6_idempotent_amended: two fresh records under cap 5 are all
accepted and persisted by the first pass; the second pass accepts none. -/
theorem C6_idempotent_amended_witness :
    filter_duplicate_jobs (engineOnce [] [mkRaw "a", mkRaw "b"] 5).2
      [mkRaw "a", mkRaw "b"] 5 = [] :=
  C6_idempotent_amended [] [mkRaw "a", mkRaw "b"] 5 (by decide) (by decide)
    (by decide) (by decide)
